import Mathlib

/-!
Shallow embedding of the fund-analysis engine.

Source of the engine: the Python calculation modules listed in `README.md`
(`PerformanceCalculator` in `backend/app/utils/calculations.py`, `RiskCalculator`
in `backend/app/utils/risk_calculations.py`).  Monthly returns are percentages;
Python floats are embedded as exact rationals (`ℚ`), and the two operations that
are genuinely real-valued (fractional powers for CAGR, square roots for the
deviation statistics) land in `ℝ`.

Dates are month-end calendar dates.  The period-return code compares dates only
through "latest date minus N calendar months" and `>`, which on month-end data
is the same as comparing month indices, so dates are embedded as integers
counting months.  Pandas label slices `s[a:b]` are inclusive of both endpoint
labels; `idxmin`/`idxmax` return the first index attaining the extremum; the
row order of a frame does not change any quantity computed here (counts and
products), so `sort_values('date')` needs no separate model.
-/

namespace FundAnalysis

/-! ### ReturnCalculator (`PerformanceCalculator`, README §2.2) -/

/-- Embeds `calculate_total_return`: geometric compounding of percentage
returns, `(1 + r/100).prod() - 1` re-expressed as a percentage.  The source
returns `0.0` for an empty slice. -/
def calculate_total_return (returns : List ℚ) : ℚ :=
  if returns.length = 0 then 0
  else ((returns.map (fun r => 1 + r / 100)).prod - 1) * 100

open Classical in
/-- Embeds `calculate_annualized_return` (CAGR): `((1+total/100) ** (1/n_years) - 1) * 100`
with `n_years = len(returns) / 12`.  Fractional powers are `Real.rpow`. -/
noncomputable def calculate_annualized_return (returns : List ℚ) : ℝ :=
  if returns.length = 0 then 0
  else if ((returns.length : ℝ) / 12) = 0 then 0
  else ((1 + ((calculate_total_return returns : ℚ) : ℝ) / 100)
          ^ ((1 : ℝ) / ((returns.length : ℝ) / 12)) - 1) * 100

/-- Factor `1 + r/100` by which the wealth index grows in a month with return `r`. -/
def wealthFactor (r : ℚ) : ℚ := 1 + r / 100

/-- Value at position `i` of the running product `(1 + returns/100).cumprod()`. -/
def prefixWealth (returns : List ℚ) (i : ℕ) : ℚ :=
  ((returns.take (i + 1)).map wealthFactor).prod

/-- Embeds `calculate_cumulative_returns_series`: cumulative compounded return
at each observation, as a percentage. -/
def calculate_cumulative_returns_series (returns : List ℚ) : List ℚ :=
  (List.range returns.length).map (fun i => (prefixWealth returns i - 1) * 100)

/-- Wealth index of the fund over its own history, one value per observation;
used to phrase the hypothesis of the all-new-highs drawdown theorem. -/
def wealthSeriesList (returns : List ℚ) : List ℚ :=
  (List.range returns.length).map (prefixWealth returns)

/-! ### Period returns (`calculate_period_returns`, README §2.2)

A fund's frame is a list of `(date, monthly_return)` rows, dates as month
indices. -/

/-- Embeds `returns_df['date'].max()` (0 on an empty frame, where the source
would propagate a NaN that no claim exercises). -/
def latestDate (df : List (ℤ × ℚ)) : ℤ :=
  match df with
  | [] => 0
  | p :: ps => (ps.map Prod.fst).foldl max p.1

/-- Embeds the trailing-window slice
`returns_df[returns_df['date'] > latest_date - DateOffset(months=months)]['monthly_return']`. -/
def periodSlice (df : List (ℤ × ℚ)) (months : ℕ) : List ℚ :=
  (df.filter (fun p => latestDate df - (months : ℤ) < p.1)).map Prod.snd

/-- Period labels whose value the source reports cumulatively rather than annualized. -/
def shortPeriodLabels : List String := ["1M", "3M", "6M"]

/-- Embeds the body of the period loop: a value is produced only when the slice
holds at least `months` observations, cumulative for `1M/3M/6M` and annualized
otherwise; an insufficient window yields `None`. -/
noncomputable def periodValue (df : List (ℤ × ℚ)) (name : String) (months : ℕ) : Option ℝ :=
  if months ≤ (periodSlice df months).length then
    some (if name ∈ shortPeriodLabels
          then ((calculate_total_return (periodSlice df months) : ℚ) : ℝ)
          else calculate_annualized_return (periodSlice df months))
  else none

/-- The `periods` dict of `calculate_period_returns`, in source order. -/
def standardPeriods : List (String × ℕ) :=
  [("1M", 1), ("3M", 3), ("6M", 6), ("1Y", 12), ("3Y", 36), ("5Y", 60), ("10Y", 120)]

/-- Embeds `calculate_period_returns`: one entry per standard period, plus an
`ITD` entry (annualized over the full history) whenever the frame is non-empty. -/
noncomputable def calculate_period_returns (df : List (ℤ × ℚ)) : List (String × Option ℝ) :=
  (standardPeriods.map (fun p => (p.1, periodValue df p.1 p.2)))
    ++ (if 0 < df.length
        then [("ITD", some (calculate_annualized_return (df.map Prod.snd)))]
        else [])

/-! ### RiskCalculator (README §3.2) -/

/-- Arithmetic mean of a slice, as a real. -/
noncomputable def listMean (l : List ℚ) : ℝ :=
  ((l.map (fun x => (x : ℝ))).sum) / l.length

/-- Sample standard deviation (pandas `.std()`, `ddof = 1`). -/
noncomputable def sampleStd (l : List ℚ) : ℝ :=
  Real.sqrt ((l.map (fun x => ((x : ℝ) - listMean l) ^ 2)).sum / ((l.length : ℝ) - 1))

/-- Embeds `calculate_volatility` with `annualize=True`: sample standard
deviation scaled by `sqrt 12`; the source returns `0.0` below two observations. -/
noncomputable def calculate_volatility (returns : List ℚ) : ℝ :=
  if returns.length < 2 then 0 else sampleStd returns * Real.sqrt 12

/-- Embeds `calculate_downside_deviation` with `annualize=True`: sample standard
deviation of the strictly negative observations scaled by `sqrt 12`; the source
returns `0.0` below two negative observations. -/
noncomputable def calculate_downside_deviation (returns : List ℚ) : ℝ :=
  if (returns.filter (fun x => x < 0)).length < 2 then 0
  else sampleStd (returns.filter (fun x => x < 0)) * Real.sqrt 12

/-! ### DrawdownAnalyzer (README §3.2) -/

/-- Wealth index rebuilt from a cumulative-return series: `1 + cum/100`. -/
def wealthAt (cum : List ℚ) (i : ℕ) : ℚ := 1 + cum.getD i 0 / 100

/-- Expanding maximum of the wealth index (`wealth_index.expanding().max()`). -/
def runningMaxAt (cum : List ℚ) : ℕ → ℚ
  | 0 => wealthAt cum 0
  | i + 1 => max (runningMaxAt cum i) (wealthAt cum (i + 1))

/-- Drawdown at one observation: `(wealth - running_max) / running_max * 100`. -/
def drawdownAt (cum : List ℚ) (i : ℕ) : ℚ :=
  (wealthAt cum i - runningMaxAt cum i) / runningMaxAt cum i * 100

/-- Embeds `calculate_drawdown_series`, one drawdown value per input observation. -/
def calculate_drawdown_series (cum : List ℚ) : List ℚ :=
  (List.range cum.length).map (drawdownAt cum)

/-- Result record of `calculate_max_drawdown`; dates are observation indices. -/
structure DrawdownEvent where
  max_drawdown : ℚ
  peak_idx : ℕ
  trough_idx : ℕ
  recovery_idx : Option ℕ
  duration_months : ℕ
deriving DecidableEq

/-- Peak search of `calculate_max_drawdown`: first `idxmax` of the inclusive
prefix `cumulative_returns[:trough]`, falling back to the first index when that
prefix is empty (`cumulative_returns.index[0]`, unreachable on real data). -/
def peakOf (cum : List ℚ) (trough : ℕ) : ℕ :=
  match (cum.take (trough + 1)).max? with
  | some mx => (cum.take (trough + 1)).findIdx (fun x => x = mx)
  | none => 0

/-- Recovery search of `calculate_max_drawdown`: first date at or after the
trough (`cumulative_returns[trough:]`, inclusive) whose cumulative return is at
least the peak's value, `none` when the series ends first. -/
def recoveryOf (cum : List ℚ) (trough peak : ℕ) : Option ℕ :=
  ((cum.drop trough).findIdx? (fun x => cum.getD peak 0 ≤ x)).map (· + trough)

/-- Duration reported by `calculate_max_drawdown`:
`len(cumulative_returns[peak:trough])` — an inclusive pandas label slice — when
peak and trough differ, else `0`. -/
def durationOf (cum : List ℚ) (peak trough : ℕ) : ℕ :=
  if peak ≠ trough then ((cum.drop peak).take (trough + 1 - peak)).length else 0

/-- Embeds `calculate_max_drawdown`.  `min?`/`findIdx` model `min`/first-hit
`idxmin`/`idxmax`; the inclusive pandas label slices `[:trough]`, `[trough:]`
and `[peak:trough]` become `take (trough+1)`, `drop trough` and
`(drop peak).take (trough+1-peak)`.  The source raises on an empty series,
embedded as `none`. -/
def calculate_max_drawdown (returns : List ℚ) : Option DrawdownEvent :=
  let cum := calculate_cumulative_returns_series returns
  let dd := calculate_drawdown_series cum
  match dd.min? with
  | none => none
  | some maxDd =>
    let trough := dd.findIdx (fun x => x = maxDd)
    let peak := peakOf cum trough
    some { max_drawdown := maxDd
           peak_idx := peak
           trough_idx := trough
           recovery_idx := recoveryOf cum trough peak
           duration_months := durationOf cum peak trough }

/-- Embeds the dict assembled by `calculate_risk_metrics` (plus the max-drawdown
entries merged into it); `best_month`/`worst_month` are `max()`/`min()` of the
slice, the month counts are the counts of strictly positive / strictly negative
observations. -/
structure RiskMetrics where
  volatility : ℝ
  downside_deviation : ℝ
  best_month : Option ℚ
  worst_month : Option ℚ
  positive_months : ℕ
  negative_months : ℕ
  sharpe : ℝ
  sortino : ℝ
  drawdown_event : Option DrawdownEvent

open Classical in
/-- Embeds `calculate_sharpe_ratio`: annualized return of the excess series
`r - rf/12` over annualized volatility of the raw series, `0.0` on a zero
denominator or fewer than two observations. -/
noncomputable def calculate_sharpe (returns : List ℚ) (riskFree : ℚ) : ℝ :=
  if returns.length < 2 then 0
  else if calculate_volatility returns = 0 then 0
  else calculate_annualized_return (returns.map (fun r => r - riskFree / 12))
         / calculate_volatility returns

open Classical in
/-- Embeds `calculate_sortino_ratio`: same numerator as Sharpe over the
annualized downside deviation, `0.0` on a zero denominator or fewer than two
observations. -/
noncomputable def calculate_sortino (returns : List ℚ) (riskFree : ℚ) : ℝ :=
  if returns.length < 2 then 0
  else if calculate_downside_deviation returns = 0 then 0
  else calculate_annualized_return (returns.map (fun r => r - riskFree / 12))
         / calculate_downside_deviation returns

/-- Embeds `calculate_risk_metrics`. -/
noncomputable def calculate_risk_metrics (returns : List ℚ) (riskFree : ℚ) : RiskMetrics :=
  { volatility := calculate_volatility returns
    downside_deviation := calculate_downside_deviation returns
    best_month := returns.max?
    worst_month := returns.min?
    positive_months := (returns.filter (fun x => 0 < x)).length
    negative_months := (returns.filter (fun x => x < 0)).length
    sharpe := calculate_sharpe returns riskFree
    sortino := calculate_sortino returns riskFree
    drawdown_event := calculate_max_drawdown returns }

/-! ### CorrelationEngine

Modelled from the spec: the repository ships only the heatmap renderer
(`frontend/src/components/Comparison/CorrelationMatrix.js`) and the API caller
for `/api/correlation`; the computing engine itself (spec §4.5) is not under
`src/`.  Following the spec's words: for each unordered fund pair take the
intersection of dates present in both series, compute the Pearson coefficient
on the paired monthly returns, require a minimum overlap of 2 paired
observations (below the threshold, or on a degenerate zero denominator, the
entry is unavailable), force the diagonal to 1.0 and mirror the single computed
value per pair.  Funds are carried by their integer `fund_id`. -/

/-- Modelled from the spec: paired observations on the dates present in both series. -/
def overlappingPairs (a b : List (ℤ × ℚ)) : List (ℚ × ℚ) :=
  a.filterMap (fun p => (List.lookup p.1 b).map (fun y => (p.2, y)))

/-- Modelled from the spec: mean of the first coordinates of the paired observations. -/
noncomputable def meanFst (pairs : List (ℚ × ℚ)) : ℝ :=
  (pairs.map (fun p => ((p.1 : ℚ) : ℝ))).sum / pairs.length

/-- Modelled from the spec: mean of the second coordinates of the paired observations. -/
noncomputable def meanSnd (pairs : List (ℚ × ℚ)) : ℝ :=
  (pairs.map (fun p => ((p.2 : ℚ) : ℝ))).sum / pairs.length

/-- Modelled from the spec: sum of products of centred coordinates (the
covariance numerator of the Pearson coefficient). -/
noncomputable def covSum (pairs : List (ℚ × ℚ)) : ℝ :=
  (pairs.map (fun p =>
    (((p.1 : ℚ) : ℝ) - meanFst pairs) * (((p.2 : ℚ) : ℝ) - meanSnd pairs))).sum

/-- Modelled from the spec: sum of squared centred first coordinates. -/
noncomputable def varSumFst (pairs : List (ℚ × ℚ)) : ℝ :=
  (pairs.map (fun p => (((p.1 : ℚ) : ℝ) - meanFst pairs) ^ 2)).sum

/-- Modelled from the spec: sum of squared centred second coordinates. -/
noncomputable def varSumSnd (pairs : List (ℚ × ℚ)) : ℝ :=
  (pairs.map (fun p => (((p.2 : ℚ) : ℝ) - meanSnd pairs) ^ 2)).sum

open Classical in
/-- Modelled from the spec: Pearson correlation coefficient of paired monthly
returns; unavailable below 2 paired observations or on a degenerate zero
denominator.  The denominator `√(vx·vy)` equals the usual product of the two
standard deviations. -/
noncomputable def pearsonCoefficient (pairs : List (ℚ × ℚ)) : Option ℝ :=
  if pairs.length < 2 then none
  else if Real.sqrt (varSumFst pairs * varSumSnd pairs) = 0 then none
  else some (covSum pairs / Real.sqrt (varSumFst pairs * varSumSnd pairs))

/-- Modelled from the spec: the assembled correlation matrix over a comparison
set, diagonal forced to `1.0`, one Pearson computation per unordered pair
(canonicalised by fund id) mirrored to both slots; unknown fund ids have no
entry. -/
noncomputable def correlationMatrix (funds : List (ℕ × List (ℤ × ℚ))) (a b : ℕ) : Option ℝ :=
  if a = b then some 1
  else
    match List.lookup a funds, List.lookup b funds with
    | some sa, some sb =>
        if a ≤ b then pearsonCoefficient (overlappingPairs sa sb)
        else pearsonCoefficient (overlappingPairs sb sa)
    | _, _ => none

end FundAnalysis

namespace FundAnalysis

/-! ### Helper lemmas shared between claims -/

lemma length_calculate_cumulative_returns_series (returns : List ℚ) :
    (calculate_cumulative_returns_series returns).length = returns.length := by
  simp [calculate_cumulative_returns_series]

lemma length_calculate_drawdown_series (cum : List ℚ) :
    (calculate_drawdown_series cum).length = cum.length := by
  simp [calculate_drawdown_series]

lemma cumulative_getD (returns : List ℚ) (i : ℕ) (h : i < returns.length) :
    (calculate_cumulative_returns_series returns).getD i 0 =
      (prefixWealth returns i - 1) * 100 := by
  rw [calculate_cumulative_returns_series,
    List.getD_eq_getElem _ _ (by simpa using h)]
  simp

lemma wealthAt_cumulative (returns : List ℚ) (i : ℕ) (h : i < returns.length) :
    wealthAt (calculate_cumulative_returns_series returns) i = prefixWealth returns i := by
  rw [wealthAt, cumulative_getD returns i h]; ring

/-! ### C1, C2, C5 -/

/-- C1: on the monthly slice `[1.0, -2.0, 3.0]` (percent) geometric compounding
gives a total return of exactly `(1.01 × 0.98 × 1.03 − 1) × 100 = 1.9494`, the
best month is `3.0`, the worst month is `-2.0`, and there are 2 positive and
1 negative months. -/
theorem C1_compounding_and_extremes :
    calculate_total_return [1, -2, 3] = 1.9494 ∧
    (calculate_risk_metrics [1, -2, 3] 0).best_month = some 3 ∧
    (calculate_risk_metrics [1, -2, 3] 0).worst_month = some (-2) ∧
    (calculate_risk_metrics [1, -2, 3] 0).positive_months = 2 ∧
    (calculate_risk_metrics [1, -2, 3] 0).negative_months = 1 := by
  refine ⟨by norm_num [calculate_total_return], ?_, ?_, ?_, ?_⟩
  · simp [calculate_risk_metrics, List.max?_cons', List.foldl, max_def]
    norm_num
  · simp [calculate_risk_metrics, List.min?_cons', List.foldl, min_def]
    norm_num
  · norm_num [calculate_risk_metrics, List.filter]
  · norm_num [calculate_risk_metrics, List.filter]

/-- C2 counterexample: on the empty slice the source's `calculate_total_return`
resolves to `0.0`, refuting "resolves to a distinguished null marker, never 0". -/
theorem C2_empty_total_return_counterexample :
    calculate_total_return ([] : List ℚ) = 0 := rfl

/-- C2 amended: for every empty return slice `calculate_total_return` returns
`0.0` (the function is numeric-valued and has no null marker). -/
theorem C2_empty_total_return_amended (returns : List ℚ) (h : returns.length = 0) :
    calculate_total_return returns = 0 := by
  rw [calculate_total_return, if_pos h]

theorem C2_empty_total_return_amended_witness :
    ([] : List ℚ).length = 0 ∧ calculate_total_return ([] : List ℚ) = 0 :=
  ⟨rfl, C2_empty_total_return_amended [] rfl⟩

/-- C5: for any return series with exactly 12 monthly observations the
annualized return equals the total cumulative return — the CAGR exponent
`1 / (12/12)` collapses to 1. -/
theorem C5_one_year_annualized_eq_total (returns : List ℚ) (h : returns.length = 12) :
    calculate_annualized_return returns = ((calculate_total_return returns : ℚ) : ℝ) := by
  rw [calculate_annualized_return, h]
  rw [if_neg (by norm_num), if_neg (by norm_num)]
  rw [show ((1:ℝ) / ((12:ℕ) / 12 : ℝ)) = 1 by norm_num, Real.rpow_one]
  ring

theorem C5_one_year_annualized_eq_total_witness :
    ([2, 1, -1, 3, 2, 1, 0, 4, -2, 1, 2, 1] : List ℚ).length = 12 ∧
    calculate_annualized_return [2, 1, -1, 3, 2, 1, 0, 4, -2, 1, 2, 1] =
      ((calculate_total_return [2, 1, -1, 3, 2, 1, 0, 4, -2, 1, 2, 1] : ℚ) : ℝ) :=
  ⟨rfl, C5_one_year_annualized_eq_total _ rfl⟩

/-! ### C3, C4 -/

/-- C3: whenever the trailing-window slice anchored at the latest date holds
fewer observations than the requested number of months, the period value is
`None` — never a value computed on the partial window. -/
theorem C3_insufficient_window_unavailable (df : List (ℤ × ℚ)) (name : String) (months : ℕ)
    (h : (periodSlice df months).length < months) :
    periodValue df name months = none := by
  rw [periodValue, if_neg (by omega)]

theorem C3_insufficient_window_unavailable_witness :
    (periodSlice [((0:ℤ), (1:ℚ)), (1, 1), (2, 1), (3, 1), (4, 1), (5, 1), (6, 1), (7, 1)]
        36).length < 36 ∧
    periodValue [((0:ℤ), (1:ℚ)), (1, 1), (2, 1), (3, 1), (4, 1), (5, 1), (6, 1), (7, 1)]
        "3Y" 36 = none :=
  ⟨by decide, C3_insufficient_window_unavailable _ "3Y" 36 (by decide)⟩

/-- C4: the period set computed by `calculate_period_returns` for any non-empty
frame consists of exactly the eight labels `1M,3M,6M,1Y,3Y,5Y,10Y,ITD` — there
is never a `YTD` entry, although the spec and the frontend period tables
(`PerformanceTable`, the ComparePage period lists) expect one. -/
theorem C4_no_ytd_entry (df : List (ℤ × ℚ)) (h : df ≠ []) :
    (calculate_period_returns df).map Prod.fst =
      ["1M", "3M", "6M", "1Y", "3Y", "5Y", "10Y", "ITD"] := by
  have hlen : 0 < df.length := List.length_pos.mpr h
  simp [calculate_period_returns, standardPeriods, if_pos hlen]

theorem C4_no_ytd_entry_witness :
    ([((0:ℤ), (1:ℚ)), (1, -2), (2, 3)] : List (ℤ × ℚ)) ≠ [] ∧
    (calculate_period_returns [((0:ℤ), (1:ℚ)), (1, -2), (2, 3)]).map Prod.fst =
      ["1M", "3M", "6M", "1Y", "3Y", "5Y", "10Y", "ITD"] :=
  ⟨by decide, C4_no_ytd_entry _ (by decide)⟩

/-! ### C6 -/

/-- C6 counterexample: on `[-5, 2, 3]` (a single negative observation) the
source's downside deviation resolves to `0.0`, refuting "resolves to a
distinguished null marker, not zero". -/
theorem C6_downside_deviation_counterexample :
    calculate_downside_deviation [-5, 2, 3] = 0 := by
  have h : (([-5, 2, 3] : List ℚ).filter (fun x => x < 0)) = [-5] := by decide
  rw [calculate_downside_deviation, h]
  norm_num

/-- C6 amended: with zero or one strictly-negative observations the downside
deviation returns `0.0` (not a null marker); with two or more it is the sample
standard deviation over the negative observations annualized by `sqrt 12`,
as the claim states. -/
theorem C6_downside_deviation_amended (returns : List ℚ) :
    ((returns.filter (fun x => x < 0)).length ≤ 1 →
      calculate_downside_deviation returns = 0) ∧
    (2 ≤ (returns.filter (fun x => x < 0)).length →
      calculate_downside_deviation returns =
        sampleStd (returns.filter (fun x => x < 0)) * Real.sqrt 12) := by
  constructor
  · intro h
    rw [calculate_downside_deviation, if_pos (by omega)]
  · intro h
    rw [calculate_downside_deviation, if_neg (by omega)]

theorem C6_downside_deviation_amended_witness :
    ((([-7, 1] : List ℚ).filter (fun x => x < 0)).length ≤ 1 ∧
      calculate_downside_deviation [-7, 1] = 0) ∧
    (2 ≤ (([-5, -2, 3] : List ℚ).filter (fun x => x < 0)).length ∧
      calculate_downside_deviation [-5, -2, 3] =
        sampleStd (([-5, -2, 3] : List ℚ).filter (fun x => x < 0)) * Real.sqrt 12) :=
  ⟨⟨by decide, (C6_downside_deviation_amended [-7, 1]).1 (by decide)⟩,
   ⟨by decide, (C6_downside_deviation_amended [-5, -2, 3]).2 (by decide)⟩⟩

end FundAnalysis

namespace FundAnalysis

/-! ### C7: drawdown series sign -/

lemma prefixWealth_pos (returns : List ℚ) (h : ∀ r ∈ returns, -100 < r) (i : ℕ) :
    0 < prefixWealth returns i := by
  rw [prefixWealth]
  apply List.prod_pos
  intro a ha
  simp only [List.mem_map] at ha
  obtain ⟨r, hr, rfl⟩ := ha
  have hra : -100 < r := h r (List.mem_of_mem_take hr)
  rw [wealthFactor]
  linarith

lemma wealthAt_le_runningMaxAt (cum : List ℚ) (i : ℕ) :
    wealthAt cum i ≤ runningMaxAt cum i := by
  cases i with
  | zero => simp [runningMaxAt]
  | succ n => simp [runningMaxAt]

lemma runningMaxAt_pos (cum : List ℚ) (i : ℕ) (h : ∀ j, j ≤ i → 0 < wealthAt cum j) :
    0 < runningMaxAt cum i := by
  induction i with
  | zero => simpa [runningMaxAt] using h 0 le_rfl
  | succ n ih =>
    rw [runningMaxAt]
    exact lt_max_of_lt_left (ih fun j hj => h j (le_trans hj (Nat.le_succ n)))

lemma drawdownAt_nonpos (cum : List ℚ) (i : ℕ) (h : ∀ j, j ≤ i → 0 < wealthAt cum j) :
    drawdownAt cum i ≤ 0 := by
  rw [drawdownAt]
  have h1 : wealthAt cum i - runningMaxAt cum i ≤ 0 :=
    sub_nonpos.mpr (wealthAt_le_runningMaxAt cum i)
  have h2 : 0 < runningMaxAt cum i := runningMaxAt_pos cum i h
  have h3 : (wealthAt cum i - runningMaxAt cum i) / runningMaxAt cum i ≤ 0 :=
    div_nonpos_iff.mpr (Or.inr ⟨h1, h2.le⟩)
  linarith

lemma drawdownAt_zero (cum : List ℚ) : drawdownAt cum 0 = 0 := by
  simp [drawdownAt, runningMaxAt]

/-- C7 counterexample: on the (admittedly impossible-for-a-fund) monthly slice
`[-150, 10]` the wealth index goes negative and the computed drawdown series is
`[0, 10]`, whose second value is positive — the unqualified "every value ≤ 0"
fails on the code. -/
theorem C7_drawdown_sign_counterexample :
    ¬ (∀ x ∈ calculate_drawdown_series (calculate_cumulative_returns_series [-150, 10]),
        x ≤ 0) := by
  have hcum : calculate_cumulative_returns_series [-150, 10] = [-150, -155] := by
    norm_num [calculate_cumulative_returns_series, prefixWealth, wealthFactor, List.range_succ]
  have hdd : calculate_drawdown_series [-150, -155] = [0, 10] := by
    norm_num [calculate_drawdown_series, drawdownAt, wealthAt, runningMaxAt, List.range_succ,
      max_def]
  rw [hcum, hdd]
  intro hall
  have := hall 10 (by simp)
  norm_num at this

/-- C7 amended: provided every monthly return exceeds `-100` percent (so the
wealth index stays positive — true of any real fund), every value of the
computed drawdown series is ≤ 0 and the first value is 0. -/
theorem C7_drawdown_nonpositive (returns : List ℚ) (h : ∀ r ∈ returns, -100 < r) :
    (∀ x ∈ calculate_drawdown_series (calculate_cumulative_returns_series returns), x ≤ 0) ∧
    (calculate_drawdown_series (calculate_cumulative_returns_series returns)).headD 0 = 0 := by
  constructor
  · intro x hx
    rw [calculate_drawdown_series] at hx
    simp only [List.mem_map, List.mem_range] at hx
    obtain ⟨i, hi, rfl⟩ := hx
    rw [length_calculate_cumulative_returns_series] at hi
    apply drawdownAt_nonpos
    intro j hj
    rw [wealthAt_cumulative returns j (lt_of_le_of_lt hj hi)]
    exact prefixWealth_pos returns h j
  · cases returns with
    | nil => rfl
    | cons a t =>
      rw [calculate_drawdown_series, length_calculate_cumulative_returns_series,
        List.length_cons, List.range_succ_eq_map]
      simp [drawdownAt_zero]

theorem C7_drawdown_nonpositive_witness :
    (∀ r ∈ ([2, -1, 4] : List ℚ), -100 < r) ∧
    ((∀ x ∈ calculate_drawdown_series (calculate_cumulative_returns_series [2, -1, 4]),
        x ≤ 0) ∧
     (calculate_drawdown_series (calculate_cumulative_returns_series [2, -1, 4])).headD 0
       = 0) := by
  have h : ∀ r ∈ ([2, -1, 4] : List ℚ), -100 < r := by decide
  exact ⟨h, C7_drawdown_nonpositive [2, -1, 4] h⟩

end FundAnalysis

namespace FundAnalysis

/-! ### C8: reported drawdown duration -/

/-- Concrete run of the analyzer on `[5, -10]`: drawdown `-10%` with peak at
index 0, trough at index 1, no recovery, and reported duration 2 (the inclusive
pandas slice `cum[peak:trough]` holds both endpoints). -/
lemma max_drawdown_five_minus_ten :
    calculate_max_drawdown [5, -10] =
      some ⟨-10, 0, 1, none, 2⟩ := by
  have hcum : calculate_cumulative_returns_series [5, -10] = [5, -11/2] := by
    norm_num [calculate_cumulative_returns_series, prefixWealth, wealthFactor, List.range_succ]
  have hdd : calculate_drawdown_series [5, -11/2] = [0, -10] := by
    norm_num [calculate_drawdown_series, drawdownAt, wealthAt, runningMaxAt, List.range_succ,
      max_def]
  rw [calculate_max_drawdown]
  simp only [hcum, hdd]
  norm_num [List.min?_cons', List.findIdx_cons, List.findIdx?_cons, min_def, max_def,
    List.max?_cons', List.foldl, peakOf, recoveryOf, durationOf]

/-- C8 counterexample: for the series `[5, -10]` the peak is index 0 and the
trough index 1, so the number of monthly observations strictly between them is
`(Finset.Ioo 0 1).card = 0`, yet the reported duration is 2. -/
theorem C8_duration_counterexample :
    calculate_max_drawdown [5, -10] = some ⟨-10, 0, 1, none, 2⟩ ∧
    (Finset.Ioo (0 : ℕ) 1).card = 0 ∧ (2 : ℕ) ≠ 0 :=
  ⟨max_drawdown_five_minus_ten, by decide, by decide⟩

/-- C8 amended: the duration reported by `calculate_max_drawdown` counts the
monthly observations from the peak through the trough inclusive
(`(Finset.Icc peak trough).card`, i.e. strictly-between plus the two
endpoints), and is 0 when peak and trough coincide. -/
theorem C8_duration_inclusive (returns : List ℚ) (e : DrawdownEvent)
    (h : calculate_max_drawdown returns = some e) :
    (e.peak_idx = e.trough_idx → e.duration_months = 0) ∧
    (e.peak_idx ≠ e.trough_idx →
      e.duration_months = (Finset.Icc e.peak_idx e.trough_idx).card) := by
  simp only [calculate_max_drawdown] at h
  set cum := calculate_cumulative_returns_series returns with hcumdef
  set dd := calculate_drawdown_series cum with hdddef
  cases hm : dd.min? with
  | none => rw [hm] at h; simp at h
  | some maxDd =>
    rw [hm] at h
    simp only [Option.some.injEq] at h
    subst h
    constructor
    · intro heq
      dsimp only at heq ⊢
      rw [durationOf, if_neg (by simpa using heq)]
    · intro hne
      dsimp only at hne ⊢
      have hmem : maxDd ∈ dd := List.min?_mem (fun a b => min_choice a b) hm
      have htr : dd.findIdx (fun x => x = maxDd) < dd.length :=
        List.findIdx_lt_length_of_exists ⟨maxDd, hmem, by simp⟩
      have hlen : dd.length = cum.length := length_calculate_drawdown_series cum
      set trough := dd.findIdx (fun x => x = maxDd) with htrdef
      have htr' : trough < cum.length := by omega
      have hpre : (cum.take (trough + 1)) ≠ [] := by
        have h0 : 0 < cum.length := lt_of_le_of_lt (Nat.zero_le _) htr'
        have : (cum.take (trough + 1)).length = min (trough + 1) cum.length :=
          List.length_take _ _
        intro hnil
        rw [hnil] at this
        simp at this
        omega
      obtain ⟨mx, hmx⟩ : ∃ mx, (cum.take (trough + 1)).max? = some mx := by
        cases hmx : (cum.take (trough + 1)).max? with
        | none => exact absurd (List.max?_eq_none_iff.mp hmx) hpre
        | some mx => exact ⟨mx, rfl⟩
      have hpeak : peakOf cum trough < trough + 1 := by
        rw [peakOf, hmx]
        dsimp only
        have hmxmem : mx ∈ cum.take (trough + 1) :=
          List.max?_mem (fun a b => max_choice a b) hmx
        have hlt : (cum.take (trough + 1)).findIdx (fun x => x = mx)
            < (cum.take (trough + 1)).length :=
          List.findIdx_lt_length_of_exists ⟨mx, hmxmem, by simp⟩
        have : (cum.take (trough + 1)).length ≤ trough + 1 := by
          rw [List.length_take]; omega
        omega
      have hpeakle : peakOf cum trough ≤ trough := Nat.lt_succ_iff.mp hpeak
      rw [durationOf, if_pos hne, List.length_take, List.length_drop, Nat.card_Icc]
      omega

theorem C8_duration_inclusive_witness :
    calculate_max_drawdown [5, -10] = some ⟨-10, 0, 1, none, 2⟩ ∧
    (2 : ℕ) = (Finset.Icc (0 : ℕ) 1).card :=
  ⟨max_drawdown_five_minus_ten,
    (C8_duration_inclusive [5, -10] ⟨-10, 0, 1, none, 2⟩ max_drawdown_five_minus_ten).2
      (by decide)⟩

end FundAnalysis

namespace FundAnalysis

/-! ### C10: a series of uninterrupted new highs -/

lemma prefixWealth_strict_mono (returns : List ℚ)
    (hchain : (wealthSeriesList returns).Chain' (· < ·)) :
    ∀ i, i + 1 < returns.length → prefixWealth returns i < prefixWealth returns (i + 1) := by
  intro i hi
  have hlen : (wealthSeriesList returns).length = returns.length := by
    simp [wealthSeriesList]
  have hget := List.chain'_iff_get.mp hchain i (by omega)
  simpa [wealthSeriesList, List.get_eq_getElem, List.getElem_map, List.getElem_range]
    using hget

lemma runningMaxAt_eq_wealthAt_of_mono (returns : List ℚ)
    (hmono : ∀ i, i + 1 < returns.length →
      prefixWealth returns i < prefixWealth returns (i + 1)) :
    ∀ i, i < returns.length →
      runningMaxAt (calculate_cumulative_returns_series returns) i =
        wealthAt (calculate_cumulative_returns_series returns) i := by
  intro i
  induction i with
  | zero => intro _; rfl
  | succ n ih =>
    intro hn
    rw [runningMaxAt, ih (Nat.lt_of_succ_lt hn)]
    rw [wealthAt_cumulative returns n (Nat.lt_of_succ_lt hn),
      wealthAt_cumulative returns (n + 1) hn]
    exact max_eq_right (le_of_lt (hmono n hn))

lemma drawdown_series_replicate_of_mono (returns : List ℚ)
    (hmono : ∀ i, i + 1 < returns.length →
      prefixWealth returns i < prefixWealth returns (i + 1)) :
    calculate_drawdown_series (calculate_cumulative_returns_series returns) =
      List.replicate returns.length 0 := by
  rw [List.eq_replicate_iff]
  constructor
  · rw [length_calculate_drawdown_series, length_calculate_cumulative_returns_series]
  · intro b hb
    rw [calculate_drawdown_series] at hb
    simp only [List.mem_map, List.mem_range,
      length_calculate_cumulative_returns_series] at hb
    obtain ⟨i, hi, rfl⟩ := hb
    rw [drawdownAt, runningMaxAt_eq_wealthAt_of_mono returns hmono i hi]
    simp

lemma foldl_min_replicate_zero : ∀ m : ℕ, List.foldl min (0 : ℚ) (List.replicate m 0) = 0 := by
  intro m
  induction m with
  | zero => rfl
  | succ n ih => rw [List.replicate_succ, List.foldl_cons, min_self]; exact ih

/-- C10: when every observation sets a new running maximum of the wealth index
(the wealth series is strictly increasing), `calculate_max_drawdown` still
reports an episode: maximum drawdown 0 with peak, trough and recovery all at
the first observation and duration 0 — it does not report the absence of a
drawdown, and the reported recovery is not strictly after the trough. -/
theorem C10_all_new_highs (returns : List ℚ) (hne : returns ≠ [])
    (hchain : (wealthSeriesList returns).Chain' (· < ·)) :
    calculate_max_drawdown returns = some ⟨0, 0, 0, some 0, 0⟩ := by
  obtain ⟨a, t, rfl⟩ := List.exists_cons_of_ne_nil hne
  have hmono := prefixWealth_strict_mono (a :: t) hchain
  have hdd := drawdown_series_replicate_of_mono (a :: t) hmono
  rw [List.length_cons] at hdd
  have hcum : calculate_cumulative_returns_series (a :: t) =
      (prefixWealth (a :: t) 0 - 1) * 100 ::
        (List.range t.length).map (fun i => (prefixWealth (a :: t) (i + 1) - 1) * 100) := by
    rw [calculate_cumulative_returns_series, List.length_cons, List.range_succ_eq_map,
      List.map_cons, List.map_map]
    rfl
  have hmin : (List.replicate (t.length + 1) (0 : ℚ)).min? = some 0 := by
    rw [List.replicate_succ, List.min?_cons']
    exact congrArg some (foldl_min_replicate_zero t.length)
  have htrough : (List.replicate (t.length + 1) (0 : ℚ)).findIdx (fun x => x = 0) = 0 := by
    rw [List.replicate_succ, List.findIdx_cons]
    simp
  simp only [calculate_max_drawdown]
  rw [hdd, hmin]
  dsimp only
  rw [htrough]
  have hpeak : peakOf (calculate_cumulative_returns_series (a :: t)) 0 = 0 := by
    rw [peakOf, hcum]
    simp only [List.take_succ_cons, List.take_zero]
    rw [show ([(prefixWealth (a :: t) 0 - 1) * 100] : List ℚ).max? =
        some ((prefixWealth (a :: t) 0 - 1) * 100) from rfl]
    dsimp only
    rw [List.findIdx_cons]
    simp
  have hrec : recoveryOf (calculate_cumulative_returns_series (a :: t)) 0 0 = some 0 := by
    rw [recoveryOf, List.drop_zero, hcum, List.getD_cons_zero, List.findIdx?_cons]
    simp
  have hdur : durationOf (calculate_cumulative_returns_series (a :: t)) 0 0 = 0 := by
    rw [durationOf, if_neg]
    simp
  rw [hpeak, hrec, hdur]

theorem C10_all_new_highs_witness :
    ([1, 2, 3] : List ℚ) ≠ [] ∧
    (wealthSeriesList [1, 2, 3]).Chain' (· < ·) ∧
    calculate_max_drawdown [1, 2, 3] = some ⟨0, 0, 0, some 0, 0⟩ := by
  have hchain : (wealthSeriesList ([1, 2, 3] : List ℚ)).Chain' (· < ·) := by
    have hw : wealthSeriesList ([1, 2, 3] : List ℚ) =
        [101/100, 10302/10000, 1061106/1000000] := by
      norm_num [wealthSeriesList, prefixWealth, wealthFactor, List.range_succ]
    rw [hw]
    rw [List.chain'_cons, List.chain'_cons]
    exact ⟨by norm_num, by norm_num, List.chain'_singleton _⟩
  exact ⟨by decide, hchain, C10_all_new_highs [1, 2, 3] (by decide) hchain⟩

end FundAnalysis

namespace FundAnalysis

/-! ### C9: correlation matrix invariants -/

lemma list_map_sum_eq_range_sum {α : Type} (l : List α) (f : α → ℝ) (d : α) :
    (l.map f).sum = ∑ i in Finset.range l.length, f (l.getD i d) := by
  induction l with
  | nil => simp
  | cons a t ih =>
    rw [List.map_cons, List.sum_cons, List.length_cons, Finset.sum_range_succ']
    simp only [List.getD_cons_succ, List.getD_cons_zero]
    rw [ih]
    ring

lemma covSum_sq_le (pairs : List (ℚ × ℚ)) :
    (covSum pairs) ^ 2 ≤ varSumFst pairs * varSumSnd pairs := by
  rw [covSum, varSumFst, varSumSnd,
    list_map_sum_eq_range_sum _ _ (0, 0), list_map_sum_eq_range_sum _ _ (0, 0),
    list_map_sum_eq_range_sum _ _ (0, 0)]
  exact Finset.sum_mul_sq_le_sq_mul_sq _ _ _

lemma pearsonCoefficient_bounds (pairs : List (ℚ × ℚ)) (v : ℝ)
    (h : pearsonCoefficient pairs = some v) : -1 ≤ v ∧ v ≤ 1 := by
  rw [pearsonCoefficient] at h
  by_cases hn : pairs.length < 2
  · rw [if_pos hn] at h; exact absurd h (by simp)
  rw [if_neg hn] at h
  by_cases hz : Real.sqrt (varSumFst pairs * varSumSnd pairs) = 0
  · rw [if_pos hz] at h; exact absurd h (by simp)
  rw [if_neg hz, Option.some.injEq] at h
  have hpos : 0 < Real.sqrt (varSumFst pairs * varSumSnd pairs) :=
    lt_of_le_of_ne (Real.sqrt_nonneg _) (Ne.symm hz)
  have habs : |covSum pairs| ≤ Real.sqrt (varSumFst pairs * varSumSnd pairs) := by
    calc |covSum pairs| = Real.sqrt ((covSum pairs) ^ 2) := (Real.sqrt_sq_eq_abs _).symm
    _ ≤ Real.sqrt (varSumFst pairs * varSumSnd pairs) :=
        Real.sqrt_le_sqrt (covSum_sq_le pairs)
  have hv : |v| ≤ 1 := by
    rw [← h, abs_div, abs_of_pos hpos]
    exact (div_le_one hpos).mpr habs
  exact abs_le.mp hv

/-- C9: the assembled correlation matrix has `1.0` on the diagonal, is exactly
symmetric in its two fund arguments, and every available coefficient lies in
`[-1, 1]` (Cauchy-Schwarz bound on the Pearson coefficient). -/
theorem C9_correlation_matrix_invariants (funds : List (ℕ × List (ℤ × ℚ))) (a b : ℕ) :
    correlationMatrix funds a a = some 1 ∧
    correlationMatrix funds a b = correlationMatrix funds b a ∧
    ∀ v : ℝ, correlationMatrix funds a b = some v → -1 ≤ v ∧ v ≤ 1 := by
  refine ⟨by rw [correlationMatrix, if_pos rfl], ?_, ?_⟩
  · by_cases hab : a = b
    · subst hab; rfl
    · rw [correlationMatrix, correlationMatrix, if_neg hab, if_neg (Ne.symm hab)]
      cases hA : List.lookup a funds with
      | none =>
        cases hB : List.lookup b funds with
        | none => rfl
        | some sb => rfl
      | some sa =>
        cases hB : List.lookup b funds with
        | none => rfl
        | some sb =>
          dsimp only
          rcases lt_or_gt_of_ne hab with hlt | hgt
          · rw [if_pos (le_of_lt hlt), if_neg (not_le.mpr hlt)]
          · rw [if_neg (not_le.mpr hgt), if_pos (le_of_lt hgt)]
  · intro v hv
    rw [correlationMatrix] at hv
    by_cases hab : a = b
    · rw [if_pos hab, Option.some.injEq] at hv
      rw [← hv]; norm_num
    · rw [if_neg hab] at hv
      cases hA : List.lookup a funds with
      | none => rw [hA] at hv; simp at hv
      | some sa =>
        cases hB : List.lookup b funds with
        | none => rw [hA, hB] at hv; simp at hv
        | some sb =>
          rw [hA, hB] at hv
          dsimp only at hv
          by_cases hle : a ≤ b
          · rw [if_pos hle] at hv
            exact pearsonCoefficient_bounds _ v hv
          · rw [if_neg hle] at hv
            exact pearsonCoefficient_bounds _ v hv

end FundAnalysis

namespace FundAnalysis

/-- Concrete run of the correlation engine: two perfectly correlated funds
(`fund 2` doubles `fund 1` each month) give coefficient exactly 1. -/
lemma correlationMatrix_example :
    correlationMatrix
      [(1, [((0:ℤ), (1:ℚ)), (1, 2), (2, 3)]), (2, [((0:ℤ), (2:ℚ)), (1, 4), (2, 6)])]
      1 2 = some 1 := by
  rw [correlationMatrix, if_neg (by norm_num)]
  rw [show List.lookup 1
      [(1, [((0:ℤ), (1:ℚ)), (1, 2), (2, 3)]), (2, [((0:ℤ), (2:ℚ)), (1, 4), (2, 6)])] =
      some [((0:ℤ), (1:ℚ)), (1, 2), (2, 3)] from rfl]
  rw [show List.lookup 2
      [(1, [((0:ℤ), (1:ℚ)), (1, 2), (2, 3)]), (2, [((0:ℤ), (2:ℚ)), (1, 4), (2, 6)])] =
      some [((0:ℤ), (2:ℚ)), (1, 4), (2, 6)] from rfl]
  dsimp only
  rw [if_pos (by norm_num)]
  have hover : overlappingPairs [((0:ℤ), (1:ℚ)), (1, 2), (2, 3)]
      [((0:ℤ), (2:ℚ)), (1, 4), (2, 6)] = [(1, 2), (2, 4), (3, 6)] := by decide
  rw [hover]
  have hmx : meanFst [((1:ℚ), (2:ℚ)), (2, 4), (3, 6)] = 2 := by
    norm_num [meanFst]
  have hmy : meanSnd [((1:ℚ), (2:ℚ)), (2, 4), (3, 6)] = 4 := by
    norm_num [meanSnd]
  have hvx : varSumFst [((1:ℚ), (2:ℚ)), (2, 4), (3, 6)] = 2 := by
    norm_num [varSumFst, hmx]
  have hvy : varSumSnd [((1:ℚ), (2:ℚ)), (2, 4), (3, 6)] = 8 := by
    norm_num [varSumSnd, hmy]
  have hcov : covSum [((1:ℚ), (2:ℚ)), (2, 4), (3, 6)] = 4 := by
    norm_num [covSum, hmx, hmy]
  have hsqrt : Real.sqrt (varSumFst [((1:ℚ), (2:ℚ)), (2, 4), (3, 6)] *
      varSumSnd [((1:ℚ), (2:ℚ)), (2, 4), (3, 6)]) = 4 := by
    rw [hvx, hvy, show ((2:ℝ) * 8) = 4 ^ 2 by norm_num, Real.sqrt_sq (by norm_num)]
  rw [pearsonCoefficient, if_neg (by norm_num), if_neg (by rw [hsqrt]; norm_num)]
  rw [hcov, hsqrt]
  norm_num

theorem C9_correlation_matrix_invariants_witness :
    correlationMatrix
      [(1, [((0:ℤ), (1:ℚ)), (1, 2), (2, 3)]), (2, [((0:ℤ), (2:ℚ)), (1, 4), (2, 6)])]
      1 2 = some 1 ∧
    (-1 ≤ (1 : ℝ) ∧ (1 : ℝ) ≤ 1) :=
  ⟨correlationMatrix_example,
    (C9_correlation_matrix_invariants
        [(1, [((0:ℤ), (1:ℚ)), (1, 2), (2, 3)]), (2, [((0:ℤ), (2:ℚ)), (1, 4), (2, 6)])]
        1 2).2.2 1 correlationMatrix_example⟩

end FundAnalysis
